import Mathlib

/-!
Verification of the `separate_then_together` multi-agent collaboration core.

This file gives a shallow embedding of the Python implementation:

* `config.py`          — `Config` dataclass and its `__post_init__` validation;
* `agent.py`           — `LLMAgent` history compaction (`_build_hybrid_history`,
                         `_get_cumulative_summary`, `_summarize_chunk_with_llm`,
                         `_update_summary_with_llm`, `_fallback_summary`,
                         `_format_messages_verbatim`) and `generate_idea`;
* `strategies.py`      — `SeparateStrategy` and `SeparateTogetherStrategy`
                         history filtering, `should_continue`, `increment_turn`;
* `session.py`         — the `SessionEngine.run` orchestration loop;
* `persona.py`         — `PersonaSelector` pair selection and its pool-size
                         precondition.

The external text-generation and embedding backends are abstracted as oracle
functions; the history compaction cache is an explicit association list; Python
exceptions are modelled with `Except`.  Floating-point sampling temperature is
modelled over `ℚ` (only order comparisons on it occur in the code).
-/

namespace STT

/-- One transcript entry, modelling the history dicts built by
`SessionEngine.run` (`session.py`, lines 96–102): keys `turn`, `role`,
`phase`, `content`, `timestamp`. -/
structure Entry where
  turn : Nat
  role : String
  phase : String
  content : String
  timestamp : String
deriving DecidableEq, Repr

/-- Python exceptions that can escape the modelled code paths. -/
inductive PyError where
  /-- Models `AttributeError` on reading a missing attribute; payload is the
  attribute name. -/
  | attributeError (attr : String)
  /-- Models `ZeroDivisionError` from `%` with a zero modulus. -/
  | zeroDivisionError
deriving DecidableEq, Repr

/-- Errors raised by `Config.__post_init__` and `PersonaSelector.__init__`
(`ValueError` in the source; the spec's taxonomy names the selector's
precondition failure `InsufficientPoolError` and the config failures
`ConfigurationError`). -/
inductive ConfigError where
  | valueError (msg : String)
deriving DecidableEq, Repr

/-- Models `config.py`: the `Config` dataclass.  The dataclass declares exactly the
eight fields below.  `summary_threshold` and `verbose_prompts` are *not*
dataclass fields: they are attached dynamically by the CLI
(`cli.py`, lines 179–180); we model a dynamic attribute as an `Option`
defaulting to `none` (reading `none` is an `AttributeError`). -/
structure Config where
  openai_api_key : String := "ollama"
  openai_base_url : String := "http://localhost:11434/v1"
  openai_model : String := "gemma3:4b"
  embedding_model : String := "all-MiniLM-L6-v2"
  separate_turns : Int := 5
  collab_turns : Int := 10
  temperature : Rat := 7/10
  max_tokens : Int := 2000
  summary_threshold : Option Nat := none
  verbose_prompts : Option Bool := none
deriving DecidableEq, Repr

/-- Models `Config.__post_init__` (`config.py`, lines 36–48): validates the API key
(non-empty), both turn counts (non-negative) and the temperature (in
`[0.0, 2.0]`).  No other field is checked. -/
def configPostInit (c : Config) : Except ConfigError Unit :=
  if c.openai_api_key = "" then
    .error (.valueError "OPENAI_API_KEY environment variable must be set. For Ollama, use this as a placeholder.")
  else if c.separate_turns < 0 ∨ c.collab_turns < 0 then
    .error (.valueError "Turn counts must be non-negative")
  else if ¬ (0 ≤ c.temperature ∧ c.temperature ≤ 2) then
    .error (.valueError "Temperature must be between 0.0 and 2.0")
  else
    .ok ()

/-- The summary cache `LLMAgent._summary_cache`: a dict keyed by the string
`"summary_upto_x7bend_turnx7d"`; since the key determines and is determined by
the integer `end_turn`, we key by `end_turn : Nat` directly.  Insertion
prepends; `lookupCache` takes the first (most recent) binding, which matches
dict-overwrite semantics — the cache is only ever read through `lookupCache`. -/
def Cache := List (Nat × String)

def lookupCache (c : Cache) (k : Nat) : Option String :=
  List.lookup k c

def insertCache (c : Cache) (k : Nat) (v : String) : Cache :=
  (k, v) :: c

/-- Models `LLMAgent._format_messages_verbatim` (`agent.py`, lines 390–406). -/
def formatMessagesVerbatim (messages : List Entry) : String :=
  String.intercalate "\n\n"
    (messages.map fun e => "Turn " ++ toString e.turn ++ " - " ++ e.role ++ ":\n" ++ e.content)

/-- Models `LLMAgent._fallback_summary` (`agent.py`, lines 408–427): one bullet per
entry, tagged with the speaker, holding the first line of the content
truncated to 100 characters (with `"..."` appended when truncation
happened).  Python's `content.split('\\n')[0]` is the longest prefix of the
content without a newline, and `[:100]` keeps the first 100 characters;
both are modelled at the character-list level. -/
def fallbackSummary (chunk : List Entry) : String :=
  String.intercalate "\n"
    (chunk.map fun e =>
      let firstLine : String := ⟨e.content.data.takeWhile (fun c => c != '\n')⟩
      let t : String := ⟨firstLine.data.take 100⟩
      let t := if t.length < firstLine.length then t ++ "..." else t
      "- " ++ e.role ++ ": " ++ t)

/-- Result of one chat-completion call: either the call raises
(network/quota/…, any `Exception`) or it returns a message whose `content`
is `None` or a string. -/
inductive GenResult where
  | err
  | ok (content : Option String)

/-- The external OpenAI-compatible backend, abstracted as oracles from the
prompt (or message list) to a `GenResult`.  The core never retries. -/
structure Backend where
  chatSummarize : String → GenResult
  chatUpdate : String → GenResult
  chatIdea : List (String × String) → GenResult

/-- The summarization prompt of `_summarize_chunk_with_llm`
(`agent.py`, lines 357–366). -/
def summarizePrompt (chunk : List Entry) (topic : String) (chunkStart chunkEnd : Nat) : String :=
  "Summarize the following " ++ toString chunk.length ++ " turns of a multi-agent planning discussion.\n\n" ++
  "TASK: " ++ topic ++ "\n\n" ++
  "DISCUSSION (turns " ++ toString chunkStart ++ "-" ++ toString chunkEnd ++ "):\n" ++
  formatMessagesVerbatim chunk ++ "\n\n" ++
  "Provide a concise summary that captures:\n" ++
  "1. Key planning steps or ideas proposed by each agent\n" ++
  "2. Important decisions or agreements\n" ++
  "3. Any unresolved issues or dependencies\n\n" ++
  "Keep the summary under 300 words. Be specific and preserve important details."

/-- Models `LLMAgent._summarize_chunk_with_llm` (`agent.py`, lines 335–388).
Returns the summary text together with the number of generation calls
issued (always 1).  On a raised `Exception` it falls back to
`_fallback_summary`; on a `None` content it returns the
"[Summary unavailable …]" marker. -/
def summarizeChunkWithLLM (b : Backend) (chunk : List Entry) (topic : String)
    (chunkStart chunkEnd : Nat) : String × Nat :=
  match b.chatSummarize (summarizePrompt chunk topic chunkStart chunkEnd) with
  | .ok (some s) => (s.trim, 1)
  | .ok none => ("[Summary unavailable for turns " ++ toString chunkStart ++ "-" ++ toString chunkEnd ++ "]", 1)
  | .err => (fallbackSummary chunk, 1)

/-- The update prompt of `_update_summary_with_llm`
(`agent.py`, lines 309–318); `threshold` is `self.config.summary_threshold`,
read by the source inside the f-string. -/
def updatePrompt (threshold : Nat) (prevSummary newChunkText topic : String)
    (startTurn endTurn : Nat) : String :=
  "Update the following conversation summary with the latest discussion steps.\n\n" ++
  "TASK: " ++ topic ++ "\n\n" ++
  "EXISTING SUMMARY (Turns " ++ toString startTurn ++ "-" ++ toString (endTurn - threshold) ++ "):\n" ++ prevSummary ++ "\n\n" ++
  "LATEST DISCUSSION (Turns " ++ toString (endTurn - threshold + 1) ++ "-" ++ toString endTurn ++ "):\n" ++ newChunkText ++ "\n\n" ++
  "INSTRUCTION: Create a new, consolidated summary covering turns " ++ toString startTurn ++ "-" ++ toString endTurn ++ ". " ++
  "Integrate the new information seamlessly. " ++
  "Focus on key decisions, plan progressions, and open dependencies. " ++
  "Keep it concise (under 400 words)."

/-- Models `LLMAgent._update_summary_with_llm` (`agent.py`, lines 300–333).
On any raised `Exception` (including the `AttributeError` from `.strip()`
when the returned content is `None`, which occurs inside the `try` block)
it returns `prev_summary + "\n\n[Update failed]\n" + new_chunk_text` —
*not* `_fallback_summary`. -/
def updateSummaryWithLLM (b : Backend) (threshold : Nat)
    (prevSummary newChunkText topic : String) (startTurn endTurn : Nat) : String × Nat :=
  match b.chatUpdate (updatePrompt threshold prevSummary newChunkText topic startTurn endTurn) with
  | .ok (some s) => (s.trim, 1)
  | _ => (prevSummary ++ "\n\n[Update failed]\n" ++ newChunkText, 1)

/-- Models `LLMAgent._get_cumulative_summary` (`agent.py`, lines 257–298), with an
explicit fuel argument for the Python call stack.  Given the segment, the
topic, the threshold and the current cache it returns
`(summary text, new cache, number of generation calls issued)`.

Source logic: let `end_turn = len(history_segment)`;
1. cache hit on `end_turn` → return the cached text (no call, no write);
2. `prev_end_turn = end_turn - threshold`; if `prev_end_turn ≤ 0`,
   summarize the whole segment from scratch (`_summarize_chunk_with_llm`);
3. otherwise recurse on `history_segment[:prev_end_turn]`, then merge with
   the verbatim new chunk (`_update_summary_with_llm`);
4. cache the result under `end_turn` before returning.

With `threshold = 0` and a non-empty uncached segment the Python recursion
never shrinks the segment and dies with a `RecursionError`; exhausted fuel
models that crash (`getCumulativeSummary` supplies fuel that is never
exhausted when `threshold ≥ 1`). -/
def getCumulativeSummaryFuel (b : Backend) (topic : String) (threshold : Nat) :
    Nat → List Entry → Cache → String × Cache × Nat
  | fuel, historySegment, cache =>
    let endTurn := historySegment.length
    match lookupCache cache endTurn with
    | some s => (s, cache, 0)
    | none =>
      let prevEndTurn : Int := (endTurn : Int) - threshold
      if prevEndTurn ≤ 0 then
        let r := summarizeChunkWithLLM b historySegment topic 1 endTurn
        (r.1, insertCache cache endTurn r.1, r.2)
      else
        match fuel with
        | 0 => ("[RecursionError]", cache, 0)
        | fuel + 1 =>
          let pr :=
            getCumulativeSummaryFuel b topic threshold fuel
              (historySegment.take prevEndTurn.toNat) cache
          let newChunk := historySegment.drop prevEndTurn.toNat
          let newChunkText := formatMessagesVerbatim newChunk
          let ur := updateSummaryWithLLM b threshold pr.1 newChunkText topic 1 endTurn
          (ur.1, insertCache pr.2.1 endTurn ur.1, pr.2.2 + ur.2)

/-- Models `LLMAgent._get_cumulative_summary` entry point: the segment length bounds
the recursion depth whenever `threshold ≥ 1`. -/
def getCumulativeSummary (b : Backend) (historySegment : List Entry) (topic : String)
    (threshold : Nat) (cache : Cache) : String × Cache × Nat :=
  getCumulativeSummaryFuel b topic threshold historySegment.length historySegment cache

/-- Models `_build_hybrid_history`, sizing arithmetic (`agent.py`, lines 222–224):
`verbatim_count = total_turns % threshold`, with `0` replaced by
`threshold`. -/
def verbatimCount (totalTurns threshold : Nat) : Nat :=
  let v := totalTurns % threshold
  if v = 0 then threshold else v

/-- Models `_build_hybrid_history`, line 226: `summary_end_index = total_turns -
verbatim_count`. -/
def summaryEndIndex (totalTurns threshold : Nat) : Nat :=
  totalTurns - verbatimCount totalTurns threshold

/-- The `<message …>` block rendered per entry by `_build_hybrid_history`
(`agent.py`, lines 235 and 252). -/
def renderMessage (e : Entry) : String :=
  "    <message turn=\"" ++ toString e.turn ++ "\" agent=\"" ++ e.role ++ "\">\n      " ++
  e.content ++ "\n    </message>\n\n"

/-- Case 1 of `_build_hybrid_history` (lines 229–237): the whole slice is
shown verbatim, with no summary section. -/
def renderCase1 (history : List Entry) : String :=
  "<conversation_history>\n  <recent_discussion>\n" ++
  String.join (history.map renderMessage) ++
  "  </recent_discussion>\n</conversation_history>"

/-- Case 2 of `_build_hybrid_history` (lines 239–255): summary section plus
verbatim recent tail. -/
def renderCase2 (summaryText : String) (recent : List Entry) : String :=
  "<conversation_history>\n" ++
  "  <earlier_discussion_summary>\n    " ++ summaryText ++ "\n  </earlier_discussion_summary>\n\n" ++
  "  <recent_discussion>\n" ++
  String.join (recent.map renderMessage) ++
  "  </recent_discussion>\n</conversation_history>"

/-- The empty-history marker of `_build_hybrid_history` (line 208). -/
def noPriorMarker : String :=
  "<conversation_history>\n  <recent_discussion>\n    (No previous discussion)\n  </recent_discussion>\n</conversation_history>"

/-- Models `LLMAgent._build_hybrid_history` (`agent.py`, lines 192–255).  Reads
`self.config.summary_threshold` unconditionally once the history is
non-empty (line 210): on a `Config` built directly from the dataclass the
attribute does not exist and the read raises `AttributeError`.  A zero
threshold raises `ZeroDivisionError` at `total_turns % threshold`.
Returns `(rendered history block, new cache, generation calls issued)`. -/
def buildHybridHistory (b : Backend) (config : Config) (history : List Entry)
    (topic : String) (cache : Cache) : Except PyError (String × Cache × Nat) :=
  if history.isEmpty then
    .ok (noPriorMarker, cache, 0)
  else
    match config.summary_threshold with
    | none => .error (.attributeError "summary_threshold")
    | some threshold =>
      if threshold = 0 then .error .zeroDivisionError
      else
        let totalTurns := history.length
        let vc := verbatimCount totalTurns threshold
        let sei := totalTurns - vc
        if sei = 0 then
          .ok (renderCase1 history, cache, 0)
        else
          let r := getCumulativeSummary b (history.take sei) topic threshold cache
          .ok (renderCase2 r.1 (history.drop sei), r.2.1, r.2.2)

/-- The history block of the Separate-phase user message
(`_build_messages`, `agent.py`, lines 140–148). -/
def renderPreviousIdeas (history : List Entry) : String :=
  if history.isEmpty then ""
  else
    "<previous_ideas>\n" ++
    String.join (history.map fun e =>
      "<idea turn=\"" ++ toString e.turn ++ "\" agent=\"" ++ e.role ++ "\">\n" ++
      e.content ++ "\n</idea>\n\n") ++
    "</previous_ideas>\n\n"

/-- Progress percentage used in the Collaborative branch of `_build_messages`
(line 158): `int((current_turn / total_turns) * 100)` with a zero guard;
Python floor-divides the true ratio, which for non-negative integers is
`current_turn * 100 / total_turns` rounded toward zero. -/
def progressPct (currentTurn totalTurns : Nat) : Nat :=
  if 0 < totalTurns then currentTurn * 100 / totalTurns else 0

/-- Stage guidance of `_build_messages` (lines 178–183). -/
def stageGuidance (pct : Nat) : String :=
  if pct < 40 then "Early collaboration - focus on exploring connections between ideas."
  else if pct < 75 then "Mid collaboration - focus on integration and identifying dependencies."
  else "Final collaboration - focus on consolidation and creating a coherent roadmap."

/-- Models `LLMAgent._build_messages` (`agent.py`, lines 101–190): builds the
role-tagged message list for the chat API.  In the Collaborative branch it
calls `_build_hybrid_history` (line 156), whose `AttributeError` on a
config without `summary_threshold` propagates (nothing catches it here). -/
def buildMessages (b : Backend) (config : Config) (systemPrompt topic : String)
    (history : List Entry) (phase : String) (currentTurn totalTurns : Nat)
    (cache : Cache) : Except PyError (List (String × String) × Cache × Nat) :=
  let systemMsg := ("system", systemPrompt)
  if phase = "Separate" then
    let userMessage :=
      "<task>" ++ topic ++ "</task>\n\n" ++
      "<phase>Independent Ideation</phase>\n" ++
      "<progress>\n" ++
      "  <turn>" ++ toString (currentTurn + 1) ++ "/" ++ toString totalTurns ++ "</turn>\n" ++
      "</progress>\n\n" ++
      "<instruction>\n" ++
      "Generate ONE detailed, specific planning step or idea.\n" ++
      "Work independently - DO NOT reference or build upon your partner's ideas.\n" ++
      "Focus on your unique domain expertise.\n" ++
      "</instruction>\n\n" ++
      renderPreviousIdeas history ++
      "Generate your next planning step:"
    .ok ([systemMsg, ("user", userMessage)], cache, 0)
  else
    match buildHybridHistory b config history topic cache with
    | .error e => .error e
    | .ok (historyContext, cache', n) =>
      let pct := progressPct currentTurn totalTurns
      let userMessage :=
        "<task>" ++ topic ++ "</task>\n\n" ++
        "<phase>Collaborative Discussion</phase>\n" ++
        "<progress>\n" ++
        "  <turn>" ++ toString (currentTurn + 1) ++ "/" ++ toString totalTurns ++ "</turn>\n" ++
        "  <percentage>" ++ toString pct ++ "%</percentage>\n" ++
        "</progress>\n\n" ++
        historyContext ++ "\n\n" ++
        "<instruction>\n" ++
        "- Generate ONE refined or integrated planning step that:\n" ++
        "  1. Builds upon or integrates ideas from both agents\n" ++
        "  2. Advances the plan toward completion\n" ++
        "  3. Focuses on synthesis and cross-domain integration\n" ++
        "- Refrain from followup questions or requests for clarification.\n" ++
        "</instruction>\n\n" ++
        "<stage_guidance>\n" ++ stageGuidance pct ++ "\n</stage_guidance>\n\n" ++
        "Generate your next planning step:"
      .ok ([systemMsg, ("user", userMessage)], cache', n)

/-- Models `LLMAgent.generate_idea` (`agent.py`, lines 52–99).  Order of effects:
1. `_build_messages` (line 76) — an `AttributeError` from the compaction
   path propagates, since the `try` block starts only at line 82;
2. the unconditional read of `self.config.verbose_prompts` (line 79), an
   `AttributeError` when the CLI never attached the attribute;
3. the chat call inside `try`: a raised `Exception` is caught and turned
   into the `"[Error generating idea: …]"` placeholder (the exception text
   is backend-specific; we render a fixed placeholder), a `None` content
   becomes `"[No response generated]"`, otherwise the stripped text. -/
def generateIdea (b : Backend) (config : Config) (systemPrompt topic : String)
    (history : List Entry) (phase : String) (currentTurn totalTurns : Nat)
    (cache : Cache) : Except PyError (String × Cache × Nat) :=
  match buildMessages b config systemPrompt topic history phase currentTurn totalTurns cache with
  | .error e => .error e
  | .ok (messages, cache', n) =>
    match config.verbose_prompts with
    | none => .error (.attributeError "verbose_prompts")
    | some _ =>
      match b.chatIdea messages with
      | .err => .ok ("[Error generating idea: exception]", cache', n)
      | .ok none => .ok ("[No response generated]", cache', n)
      | .ok (some s) => .ok (s.trim, cache', n)

/-! ## Strategies (`strategies.py`) -/

/-- Models `SeparateStrategy.filter_history` (`strategies.py`, lines 72–89): keep
exactly the entries whose `role` equals the requesting agent's name. -/
def separateFilterHistory (fullHistory : List Entry) (currentAgentName : String) : List Entry :=
  fullHistory.filter fun e => e.role == currentAgentName

/-- The mutable state of a `SeparateTogetherStrategy` instance:
`separate_turns`, `collab_turns`, `current_turn` (from the base class
`__init__`, lines 14–23) and the `_in_separate_phase` flag
(line 165, initialized `True`). -/
structure STState where
  separate_turns : Nat
  collab_turns : Nat
  current_turn : Nat
  inSeparatePhase : Bool
deriving DecidableEq, Repr

/-- Models `SeparateTogetherStrategy.__init__` (`strategies.py`, lines 157–165). -/
def stInit (separateTurns collabTurns : Nat) : STState :=
  ⟨separateTurns, collabTurns, 0, true⟩

/-- Models `CollaborationStrategy.should_continue` (base class, lines 51–58). -/
def stShouldContinue (st : STState) : Bool :=
  st.current_turn < st.separate_turns + st.collab_turns

/-- Models `CollaborationStrategy.increment_turn` (lines 60–62). -/
def stIncrement (st : STState) : STState :=
  { st with current_turn := st.current_turn + 1 }

/-- Models `SeparateTogetherStrategy.get_phase_name` (lines 196–205). -/
def stGetPhaseName (st : STState) : String :=
  if st.current_turn < st.separate_turns then "Separate" else "Collaborative"

/-- Models `SeparateTogetherStrategy.filter_history` (`strategies.py`,
lines 167–194).  First clears the cached `_in_separate_phase` flag when
`current_turn >= separate_turns`, then branches on the flag.  Returns the
filtered slice together with the (possibly mutated) strategy state. -/
def stFilterHistory (st : STState) (fullHistory : List Entry)
    (currentAgentName : String) : List Entry × STState :=
  let st' := if st.separate_turns ≤ st.current_turn then { st with inSeparatePhase := false } else st
  if st'.inSeparatePhase then
    (fullHistory.filter fun e => e.role == currentAgentName, st')
  else
    (fullHistory, st')

/-- The stateless phase recomputation described by the spec: own records
while `current_turn < separate_turns`, the full history afterwards.
(Spec §4.1: the phase boundary "must be recomputed from `current_turn` on
every call, not cached".) -/
def stPureFilter (st : STState) (fullHistory : List Entry)
    (currentAgentName : String) : List Entry :=
  if st.current_turn < st.separate_turns then
    fullHistory.filter fun e => e.role == currentAgentName
  else
    fullHistory

/-- States of a `SeparateTogetherStrategy` reachable through its public
API: construction, `increment_turn`, and `filter_history` (which mutates
the flag).  `SessionEngine.run` only ever applies these operations. -/
inductive STReachable : STState → Prop where
  | init (s c : Nat) : STReachable (stInit s c)
  | incr {st : STState} : STReachable st → STReachable (stIncrement st)
  | filter {st : STState} (hist : List Entry) (name : String) :
      STReachable st → STReachable (stFilterHistory st hist name).2

/-! ## Session orchestration (`session.py`) -/

/-- One iteration of the `SessionEngine.run` loop (`session.py`,
lines 64–109), specialized to a `SeparateTogetherStrategy` and two agents.
`gen` abstracts `agent.generate_idea(topic, filtered, phase)` (the idea text
may depend on the acting agent, its visible slice and the phase label);
`clock` abstracts `datetime.now().isoformat()` per loop iteration.
Order as in the source: round-robin index (`current_turn % 2`, line 72),
`filter_history` (line 77, mutating the flag), `generate_idea` with
`get_phase_name()` (line 89), append the record with `turn = current_turn
+ 1` (lines 96–103), `increment_turn()` (line 109). -/
def runStep (gen : String → List Entry → String → String) (clock : Nat → String)
    (names : String × String) (st : STState) (hist : List Entry) :
    STState × List Entry :=
  let agentIndex := st.current_turn % 2
  let currentAgentName := if agentIndex = 0 then names.1 else names.2
  let (filteredHistory, st₁) := stFilterHistory st hist currentAgentName
  let phase := stGetPhaseName st₁
  let idea := gen currentAgentName filteredHistory phase
  let record : Entry :=
    { turn := st₁.current_turn + 1
      role := currentAgentName
      phase := phase
      content := idea
      timestamp := clock st₁.current_turn }
  (stIncrement st₁, hist ++ [record])

/-- The `while self.strategy.should_continue()` loop of `SessionEngine.run`
(fuel-indexed; the session supplies `separate_turns + collab_turns` fuel,
which suffices since every iteration increments `current_turn`). -/
def runLoop (gen : String → List Entry → String → String) (clock : Nat → String)
    (names : String × String) : Nat → STState → List Entry → List Entry
  | 0, _, hist => hist
  | fuel + 1, st, hist =>
    if stShouldContinue st then
      let (st', hist') := runStep gen clock names st hist
      runLoop gen clock names fuel st' hist'
    else hist

/-- Models `SessionEngine.run` (`session.py`, lines 47–116) with a fresh
`SeparateTogetherStrategy(separate_turns, collab_turns)`: starts from the
empty transcript and turn 0 and loops until `should_continue` is false. -/
def runSession (gen : String → List Entry → String → String) (clock : Nat → String)
    (names : String × String) (separateTurns collabTurns : Nat) : List Entry :=
  runLoop gen clock names (separateTurns + collabTurns) (stInit separateTurns collabTurns) []

/-! ## Persona selection (`persona.py`) -/

/-- Models `PersonaSelector.__init__` error: the source raises
`ValueError("At least 2 personas are required for selection")`; the spec's
error taxonomy names this precondition failure `InsufficientPoolError`. -/
inductive SelectorError where
  | insufficientPool
deriving DecidableEq, Repr

/-- A persona (`persona.py`, lines 11–27): name plus system prompt. -/
structure PersonaData where
  name : String
  system_prompt : String
deriving DecidableEq, Repr

/-- Models `PersonaSelector` state after construction: the pool and the lazily
computed embedding matrix (`self._embeddings`, `None` until the
`embeddings` property is first read). -/
structure SelectorState where
  personas : List PersonaData
  embeddings : Option (List (List Rat))
deriving DecidableEq, Repr

/-- Models `PersonaSelector.__init__` (`persona.py`, lines 37–50).  The pool-size
check precedes everything else; `SentenceTransformer(embedding_model)` only
loads the model — no text is embedded during construction
(`self._embeddings` is initialized to `None`).  The second component counts
embedding-backend calls issued during construction: always `0`. -/
def personaSelectorInit (personas : List PersonaData) :
    Except SelectorError SelectorState × Nat :=
  if personas.length < 2 then
    (.error .insufficientPool, 0)
  else
    (.ok ⟨personas, none⟩, 0)

/-- The `embeddings` property (`persona.py`, lines 52–62): computes the
embedding matrix on first access (one backend call) and caches it.  The
third component counts embedding-backend calls. -/
def embeddingsProperty (embed : List String → List (List Rat))
    (st : SelectorState) : List (List Rat) × SelectorState × Nat :=
  match st.embeddings with
  | some e => (e, st, 0)
  | none =>
    let e := embed (st.personas.map (·.system_prompt))
    (e, { st with embeddings := some e }, 1)

/-- The fold inside Python's `min(iterable, key=...)`: keep the current
best, replace only on a strictly smaller key — so the *first* minimal
element in iteration order wins ties. -/
def pythonMinFold {β : Type} {α : Type} [LinearOrder α] :
    β × α → List (β × α) → β × α
  | best, [] => best
  | best, x :: xs => pythonMinFold (if x.2 < best.2 then x else best) xs

/-- Python's `min` over a keyed iterable (insertion order = iteration order
for the similarity dict built in `calculate_similarity_matrix`). -/
def pythonMin {β : Type} {α : Type} [LinearOrder α] :
    List (β × α) → Option (β × α)
  | [] => none
  | x :: xs => some (pythonMinFold x xs)

/-- The fold inside Python's `max(iterable, key=...)`: replace only on a
strictly larger key — the first maximal element wins ties. -/
def pythonMaxFold {β : Type} {α : Type} [LinearOrder α] :
    β × α → List (β × α) → β × α
  | best, [] => best
  | best, x :: xs => pythonMaxFold (if best.2 < x.2 then x else best) xs

/-- Python's `max` over a keyed iterable. -/
def pythonMax {β : Type} {α : Type} [LinearOrder α] :
    List (β × α) → Option (β × α)
  | [] => none
  | x :: xs => some (pythonMaxFold x xs)

/-- The pair enumeration of `calculate_similarity_matrix` (`persona.py`,
lines 74–78): `for i in range(n): for j in range(i+1, n)` — all index pairs
`i < j < n` in lexicographic order. -/
def allPairs (n : Nat) : List (Nat × Nat) :=
  (List.range n).flatMap fun i =>
    ((List.range n).filter fun j => i < j).map fun j => (i, j)

/-- Models `PersonaSelector.calculate_similarity_matrix` (`persona.py`,
lines 64–80): the (insertion-ordered) dict from pair to cosine similarity.
`sim i j` abstracts `cosine_similarity(embeddings)[i, j]`; the dict keys
`f"x7bname_ix7d × x7bname_jx7d"` are modelled by the index pair itself,
which is faithful because persona names are unique (data model §3) so the
name pair determines the index pair. -/
def calculateSimilarityMatrix {α : Type} [LinearOrder α] (n : Nat)
    (sim : Nat → Nat → α) : List ((Nat × Nat) × α) :=
  (allPairs n).map fun p => (p, sim p.1 p.2)

/-- Models `PersonaSelector.select_dissimilar_pair` (`persona.py`, lines 82–115):
`min(similarities, key=similarities.get)` over the similarity dict. -/
def selectDissimilarPair {α : Type} [LinearOrder α] (n : Nat)
    (sim : Nat → Nat → α) : Option (Nat × Nat) :=
  (pythonMin (calculateSimilarityMatrix n sim)).map (·.1)

/-- Models `PersonaSelector.select_similar_pair` (`persona.py`, lines 117–145):
`max(similarities, key=similarities.get)`. -/
def selectSimilarPair {α : Type} [LinearOrder α] (n : Nat)
    (sim : Nat → Nat → α) : Option (Nat × Nat) :=
  (pythonMax (calculateSimilarityMatrix n sim)).map (·.1)

/-! ## Concrete inputs used by witnesses and counterexamples -/

/-- A backend whose every generation call raises (models persistent
network/quota failure of the external collaborator). -/
def failBackend : Backend :=
  { chatSummarize := fun _ => .err
    chatUpdate := fun _ => .err
    chatIdea := fun _ => .err }

/-- A sample transcript entry. -/
def sampleEntry : Entry :=
  { turn := 1, role := "A", phase := "Separate", content := "a", timestamp := "t1" }

/-- A sample transcript entry spoken by `B`. -/
def sampleEntryB : Entry :=
  { turn := 1, role := "B", phase := "Separate", content := "b", timestamp := "t1" }

/-- A four-turn transcript slice (two speakers alternating). -/
def seg4 : List Entry :=
  [ { turn := 1, role := "A", phase := "Collaborative", content := "a", timestamp := "t1" },
    { turn := 2, role := "B", phase := "Collaborative", content := "b", timestamp := "t2" },
    { turn := 3, role := "A", phase := "Collaborative", content := "c", timestamp := "t3" },
    { turn := 4, role := "B", phase := "Collaborative", content := "d", timestamp := "t4" } ]

/-- An artificial strategy state: flag already cleared while
`current_turn < separate_turns`.  Not reachable through the public API. -/
def badState : STState :=
  { separate_turns := 1, collab_turns := 0, current_turn := 0, inSeparatePhase := false }

/-- A concrete similarity function on a pool of three (pair `(0,2)` is the
unique minimum, pair `(0,1)` the unique maximum). -/
def simEx : Nat → Nat → Int :=
  fun i j => if i = 0 ∧ j = 2 then -5 else if i = 0 ∧ j = 1 then 9 else 3

/-! ## Theorems -/

/-- Claim C1: For every history slice of length `L > 0` and every
`chunk_threshold ≥ 1`, the compactor's verbatim window size is
`L mod chunk_threshold` with `0` treated as `chunk_threshold`, hence always
in `[1, chunk_threshold]` and exactly `L` when `L ≤ chunk_threshold`; the
summary boundary is `L` minus the window size, and when that boundary is
`0` the whole slice is rendered verbatim with no summary (no generation
call, cache untouched). -/
theorem C1_verbatim_window (L t : Nat) (ht : 1 ≤ t) (hL : 0 < L) :
    ((1 ≤ verbatimCount L t ∧ verbatimCount L t ≤ t)
  ∧ (L ≤ t → verbatimCount L t = L)
  ∧ (L % t ≠ 0 → verbatimCount L t = L % t)
  ∧ (L % t = 0 → verbatimCount L t = t))
  ∧ summaryEndIndex L t = L - verbatimCount L t
  ∧ (∀ (b : Backend) (config : Config) (history : List Entry) (topic : String) (cache : Cache),
      config.summary_threshold = some t → history.length = L →
      summaryEndIndex L t = 0 →
      buildHybridHistory b config history topic cache = .ok (renderCase1 history, cache, 0)) := by
  have hmod : L % t < t := Nat.mod_lt L ht
  have hvc : (L % t ≠ 0 → verbatimCount L t = L % t) ∧ (L % t = 0 → verbatimCount L t = t) := by
    constructor <;> intro h <;> simp [verbatimCount, h]
  refine ⟨⟨⟨?_, ?_⟩, ?_, hvc.1, hvc.2⟩, rfl, ?_⟩
  · rcases Nat.eq_zero_or_pos (L % t) with h | h
    · rw [hvc.2 h]; exact ht
    · rw [hvc.1 (Nat.pos_iff_ne_zero.mp h)]; exact h
  · rcases Nat.eq_zero_or_pos (L % t) with h | h
    · rw [hvc.2 h]
    · exact (hvc.1 (Nat.pos_iff_ne_zero.mp h)).le.trans hmod.le
  · intro hLt
    rcases Nat.eq_zero_or_pos (L % t) with h | h
    · have : t ∣ L := Nat.dvd_of_mod_eq_zero h
      have : t ≤ L := Nat.le_of_dvd hL this
      rw [hvc.2 h]; omega
    · have hLlt : L < t := by
        rcases Nat.lt_or_ge L t with h' | h'
        · exact h'
        · have : L = t := le_antisymm hLt h'
          subst this; simp at h
      rw [hvc.1 (Nat.pos_iff_ne_zero.mp h), Nat.mod_eq_of_lt hLlt]
  · intro b config history topic cache hthr hlen hsei
    have hne : history.isEmpty = false := by
      cases history with
      | nil => simp at hlen; omega
      | cons x xs => rfl
    have ht0 : ¬ t = 0 := by omega
    have hsei' : history.length - verbatimCount history.length t = 0 := by
      rw [hlen]; exact hsei
    simp only [buildHybridHistory, hne, Bool.false_eq_true, if_false, hthr, ht0, hsei',
      if_true, reduceIte]

/-- Witness for C1 at `L = 3`, `chunk_threshold = 2`. -/
theorem C1_verbatim_window_witness :
    1 ≤ verbatimCount 3 2 ∧ verbatimCount 3 2 ≤ 2 :=
  (C1_verbatim_window 3 2 (by norm_num) (by norm_num)).1.1

/-- Claim C8, counterexample: The claim says every core configuration value
— including `chunk_threshold` and the max output length — is validated at
construction, any invalid value failing fast.  But `Config.__post_init__`
never inspects `max_tokens`, and `summary_threshold` is not even a
dataclass field (the CLI attaches it unvalidated): a config with
`max_tokens = -1`, or with `summary_threshold = 0`, is accepted. -/
theorem C8_counterexample :
    configPostInit { max_tokens := -1 } = .ok ()
  ∧ ({ max_tokens := -1 } : Config).max_tokens < 0
  ∧ configPostInit { summary_threshold := some 0 } = .ok () := by
  refine ⟨?_, by norm_num, ?_⟩ <;> norm_num [configPostInit] <;>
    (intro h; exact absurd h (by decide))

/-- Claim C8, amended: Construction validates exactly: API key non-empty,
both turn counts non-negative, temperature in `[0, 2]`.  The max output
length (`max_tokens`) and the chunk threshold (`summary_threshold`) are
never validated: changing them (and `verbose_prompts`) cannot affect the
outcome of validation. -/
theorem C8_validation (c : Config) :
    (configPostInit c = .ok () ↔
      (c.openai_api_key ≠ "" ∧ 0 ≤ c.separate_turns ∧ 0 ≤ c.collab_turns
        ∧ 0 ≤ c.temperature ∧ c.temperature ≤ 2))
  ∧ (∀ (mt : Int) (st : Option Nat) (vp : Option Bool),
      configPostInit { c with max_tokens := mt, summary_threshold := st, verbose_prompts := vp }
        = configPostInit c) := by
  constructor
  · simp only [configPostInit]
    split_ifs with h1 h2 h3 <;> simp_all
    omega
  · intro mt st vp
    simp [configPostInit]

/-- Claim C10: On a `Config` built directly from the dataclass (which has no
`summary_threshold` field — only the CLI attaches one), any
collaborative-phase `generate_idea` with a non-empty history raises
`AttributeError` inside the compaction path: `_build_hybrid_history` reads
`config.summary_threshold` unconditionally, before the `try` block and
before the `verbose_prompts` read. -/
theorem C10_missing_summary_threshold (b : Backend) (config : Config)
    (systemPrompt topic : String) (history : List Entry) (ct tt : Nat) (cache : Cache)
    (hattr : config.summary_threshold = none) (hne : history ≠ []) :
    generateIdea b config systemPrompt topic history "Collaborative" ct tt cache
      = .error (.attributeError "summary_threshold") := by
  have hphase : ¬ (("Collaborative" : String) = "Separate") := by decide
  have hempty : history.isEmpty = false := by
    cases history with
    | nil => exact absurd rfl hne
    | cons x xs => rfl
  simp [generateIdea, buildMessages, buildHybridHistory, hphase, hempty, hattr]

/-- Witness for C10: the default dataclass `Config` and a one-entry
history. -/
theorem C10_missing_summary_threshold_witness :
    generateIdea failBackend {} "" "" [sampleEntry] "Collaborative" 0 0 []
      = .error (.attributeError "summary_threshold") :=
  C10_missing_summary_threshold failBackend {} "" "" [sampleEntry] 0 0 [] rfl
    (by simp [sampleEntry])

/-- Claim C2: Divergent-phase filtering is exact: for every transcript and
every acting participant `X`, the visible slice contains exactly the
records whose speaker is `X`, in their original order (a sublist of the
transcript preserving multiplicities), with no foreign record included and
no record of `X` dropped.  This holds for `SeparateStrategy.filter_history`
and, in the divergent phase, for
`SeparateTogetherStrategy.filter_history`. -/
theorem C2_divergent_filter_exact (fullHistory : List Entry) (X : String) :
    (∀ e ∈ separateFilterHistory fullHistory X, e.role = X)
  ∧ (separateFilterHistory fullHistory X).Sublist fullHistory
  ∧ (∀ e : Entry,
      (separateFilterHistory fullHistory X).count e
        = if e.role = X then fullHistory.count e else 0)
  ∧ (∀ st : STState, st.inSeparatePhase = true → st.current_turn < st.separate_turns →
      (stFilterHistory st fullHistory X).1 = separateFilterHistory fullHistory X) := by
  refine ⟨?_, ?_, ?_, ?_⟩
  · intro e he
    have := (List.mem_filter.mp he).2
    simpa using this
  · exact List.filter_sublist _
  · intro e
    by_cases h : e.role = X
    · rw [if_pos h]
      exact List.count_filter (by simpa using h)
    · rw [if_neg h]
      refine List.count_eq_zero.mpr ?_
      intro hmem
      exact h (by simpa using (List.mem_filter.mp hmem).2)
  · intro st hflag hturn
    have hle : ¬ st.separate_turns ≤ st.current_turn := Nat.not_le.mpr hturn
    simp [stFilterHistory, separateFilterHistory, hle, hflag]

/-- Witness for C2's divergent-phase conjunct at a fresh two-phase strategy
state. -/
theorem C2_divergent_filter_exact_witness :
    (stFilterHistory (stInit 2 1) [sampleEntry, sampleEntryB] "A").1
      = separateFilterHistory [sampleEntry, sampleEntryB] "A" :=
  (C2_divergent_filter_exact [sampleEntry, sampleEntryB] "A").2.2.2
    (stInit 2 1) rfl (by decide)

/-- The strategy-state component returned by
`SeparateTogetherStrategy.filter_history`: the flag is cleared exactly when
`separate_turns ≤ current_turn`; no other field changes. -/
theorem stFilterHistory_snd (st : STState) (hist : List Entry) (name : String) :
    (stFilterHistory st hist name).2
      = if st.separate_turns ≤ st.current_turn
          then { st with inSeparatePhase := false } else st := by
  simp only [stFilterHistory]
  split <;> split <;> rfl

/-- Invariant of reachable `SeparateTogetherStrategy` states: the cached
`_in_separate_phase` flag is only ever cleared at or after the phase
boundary, and `current_turn` never decreases, so a cleared flag implies
`separate_turns ≤ current_turn`. -/
theorem stReachable_flag_invariant {st : STState} (h : STReachable st) :
    st.inSeparatePhase = false → st.separate_turns ≤ st.current_turn := by
  induction h with
  | init s c => intro hf; exact absurd hf (by simp [stInit])
  | @incr st' _ ih =>
    intro hf
    have hf' : st'.inSeparatePhase = false := hf
    exact (ih hf').trans (Nat.le_succ _)
  | @filter st' hist name _ ih =>
    intro hf
    rw [stFilterHistory_snd] at hf ⊢
    by_cases hle : st'.separate_turns ≤ st'.current_turn
    · simp only [if_pos hle]
      exact hle
    · rw [if_neg hle] at hf ⊢
      exact ih hf

/-- Claim C9, amended: On every strategy state reachable through the public
API (construction, `increment_turn`, `filter_history`), the phase decision
of `SeparateTogetherStrategy.filter_history` agrees with a stateless
recomputation from `current_turn`: own records exactly when
`current_turn < separate_turns`, the full history otherwise.  (The cached
`_in_separate_phase` flag never diverges from the recomputation on
reachable states; on artificial states it can, see the counterexample.) -/
theorem C9_filter_stateless_on_reachable {st : STState} (h : STReachable st)
    (fullHistory : List Entry) (X : String) :
    (stFilterHistory st fullHistory X).1 = stPureFilter st fullHistory X := by
  by_cases hturn : st.current_turn < st.separate_turns
  · have hflag : st.inSeparatePhase = true := by
      by_contra hf
      have := stReachable_flag_invariant h (by simpa using hf)
      omega
    have hle : ¬ st.separate_turns ≤ st.current_turn := Nat.not_le.mpr hturn
    simp [stFilterHistory, stPureFilter, hle, hflag, hturn]
  · have hle : st.separate_turns ≤ st.current_turn := Nat.not_lt.mp hturn
    simp [stFilterHistory, stPureFilter, hle, hturn]

/-- Witness for C9 at the freshly constructed strategy. -/
theorem C9_filter_stateless_on_reachable_witness :
    (stFilterHistory (stInit 1 1) [sampleEntryB] "A").1
      = stPureFilter (stInit 1 1) [sampleEntryB] "A" :=
  C9_filter_stateless_on_reachable (STReachable.init 1 1) [sampleEntryB] "A"

/-- Claim C9, counterexample: The claim as stated quantifies over *every*
strategy state.  On the artificial state with the flag already cleared and
`current_turn = 0 < separate_turns = 1` — never produced by the public API
— `filter_history` returns the full history while the stateless
recomputation returns only the acting participant's records: the behaviour
is not a pure function of `current_turn` and the arguments alone. -/
theorem C9_filter_stateless_counterexample :
    (stFilterHistory badState [sampleEntryB] "A").1
      ≠ stPureFilter badState [sampleEntryB] "A" := by
  decide

/-- Claim C7: Constructing the divergence selector with a pool of fewer than
2 participants fails (the source raises `ValueError`, the spec's
`InsufficientPoolError`), and construction never issues an embedding call
— the pool-size check precedes everything, `self._embeddings` starts as
`None`, and only the `embeddings` property (never called during
`__init__`) invokes the embedding backend. -/
theorem C7_insufficient_pool (personas : List PersonaData)
    (h : personas.length < 2) :
    (personaSelectorInit personas).1 = .error .insufficientPool
  ∧ (∀ ps : List PersonaData, (personaSelectorInit ps).2 = 0) := by
  refine ⟨?_, ?_⟩
  · simp [personaSelectorInit, h]
  · intro ps
    simp only [personaSelectorInit]
    split_ifs <;> rfl

/-- Witness for C7: a pool of size 1. -/
theorem C7_insufficient_pool_witness :
    (personaSelectorInit [⟨"Solo", "the only persona"⟩]).1 = .error .insufficientPool :=
  (C7_insufficient_pool [⟨"Solo", "the only persona"⟩] (by decide)).1

/-- Claim C5: With `separate_turns = 4`, `collab_turns = 4` and two
participants `A` (first-listed) and `B`, the orchestrator loop runs while
`current_turn < separate_turns + collab_turns` and produces exactly 8
records with turn values 1 through 8 in order; the first 4 carry the
divergent phase label and alternate `A,B,A,B`, the next 4 carry the
convergent label and alternate `A,B,A,B` — the speaker at each step being
the participant at index `current_turn % 2`. -/
theorem C5_session_scenario (gen : String → List Entry → String → String)
    (clock : Nat → String) (A B : String) :
    (runSession gen clock (A, B) 4 4).length = 8
  ∧ (runSession gen clock (A, B) 4 4).map (·.turn) = [1, 2, 3, 4, 5, 6, 7, 8]
  ∧ (runSession gen clock (A, B) 4 4).map (·.role) = [A, B, A, B, A, B, A, B]
  ∧ (runSession gen clock (A, B) 4 4).map (·.phase)
      = ["Separate", "Separate", "Separate", "Separate",
         "Collaborative", "Collaborative", "Collaborative", "Collaborative"]
  ∧ (∀ st : STState,
      stShouldContinue st = true ↔ st.current_turn < st.separate_turns + st.collab_turns) := by
  refine ⟨?_, ?_, ?_, ?_, ?_⟩ <;>
    first
      | (intro st; simp [stShouldContinue])
      | rfl

/-! ### Compaction-cache lemmas (C3/C4 infrastructure) -/

/-- Unfolding: cache hit returns the cached text with no call and no cache
write, at any fuel. -/
theorem getCumulativeSummaryFuel_hit (b : Backend) (topic : String) (t fuel : Nat)
    (seg : List Entry) (cache : Cache) (s : String)
    (h : lookupCache cache seg.length = some s) :
    getCumulativeSummaryFuel b topic t fuel seg cache = (s, cache, 0) := by
  unfold getCumulativeSummaryFuel
  simp [h]

/-- Unfolding: cache miss with `seg.length ≤ t` takes the base
(from-scratch) branch at any fuel. -/
theorem getCumulativeSummaryFuel_base (b : Backend) (topic : String) (t fuel : Nat)
    (seg : List Entry) (cache : Cache)
    (hmiss : lookupCache cache seg.length = none)
    (hle : seg.length ≤ t) :
    getCumulativeSummaryFuel b topic t fuel seg cache =
      ((summarizeChunkWithLLM b seg topic 1 seg.length).1,
        insertCache cache seg.length (summarizeChunkWithLLM b seg topic 1 seg.length).1,
        (summarizeChunkWithLLM b seg topic 1 seg.length).2) := by
  unfold getCumulativeSummaryFuel
  have hz : ((seg.length : Int) - t ≤ 0) := by omega
  simp [hmiss, hz]

/-- Unfolding: cache miss with `t < seg.length` takes the recursive branch
when fuel remains. -/
theorem getCumulativeSummaryFuel_rec (b : Backend) (topic : String) (t fuel : Nat)
    (seg : List Entry) (cache : Cache)
    (hmiss : lookupCache cache seg.length = none)
    (hgt : t < seg.length) :
    getCumulativeSummaryFuel b topic t (fuel + 1) seg cache =
      (let pr := getCumulativeSummaryFuel b topic t fuel (seg.take (seg.length - t)) cache
       let ur := updateSummaryWithLLM b t pr.1
         (formatMessagesVerbatim (seg.drop (seg.length - t))) topic 1 seg.length
       (ur.1, insertCache pr.2.1 seg.length ur.1, pr.2.2 + ur.2)) := by
  have hz : ¬ ((seg.length : Int) - t ≤ 0) := by omega
  have htn : ((seg.length : Int) - t).toNat = seg.length - t := by omega
  conv_lhs => rw [getCumulativeSummaryFuel.eq_def]
  simp only [hmiss, hz, htn, if_false, reduceIte]

/-- Looking up the key just written (dict assignment then read). -/
theorem lookupCache_insert (c : Cache) (k : Nat) (v : String) :
    lookupCache (insertCache c k v) k = some v := by
  simp [lookupCache, insertCache, List.lookup]

/-- Models `_summarize_chunk_with_llm` issues exactly one generation call, on every
outcome. -/
theorem summarizeChunkWithLLM_calls (b : Backend) (chunk : List Entry)
    (topic : String) (s e : Nat) :
    (summarizeChunkWithLLM b chunk topic s e).2 = 1 := by
  unfold summarizeChunkWithLLM
  cases h : b.chatSummarize (summarizePrompt chunk topic s e) with
  | err => rfl
  | ok c => cases c <;> rfl

/-- Models `_update_summary_with_llm` issues exactly one generation call, on every
outcome. -/
theorem updateSummaryWithLLM_calls (b : Backend) (t : Nat)
    (prev chunkText topic : String) (s e : Nat) :
    (updateSummaryWithLLM b t prev chunkText topic s e).2 = 1 := by
  unfold updateSummaryWithLLM
  cases h : b.chatUpdate (updatePrompt t prev chunkText topic s e) with
  | err => rfl
  | ok c => cases c <;> rfl

/-- After any non-fuel-starved `_get_cumulative_summary` call, the cache
holds the returned text under the end-index key. -/
theorem getCumulativeSummaryFuel_caches (b : Backend) (topic : String)
    (t fuel : Nat) (seg : List Entry) (cache : Cache)
    (hfuel : seg.length ≤ fuel + t) :
    lookupCache (getCumulativeSummaryFuel b topic t fuel seg cache).2.1 seg.length
      = some (getCumulativeSummaryFuel b topic t fuel seg cache).1 := by
  cases hhit : lookupCache cache seg.length with
  | some s =>
    rw [getCumulativeSummaryFuel_hit b topic t fuel seg cache s hhit]
    exact hhit
  | none =>
    by_cases hle : seg.length ≤ t
    · rw [getCumulativeSummaryFuel_base b topic t fuel seg cache hhit hle]
      exact lookupCache_insert _ _ _
    · have hgt : t < seg.length := Nat.not_le.mp hle
      obtain ⟨fuel', rfl⟩ : ∃ f, fuel = f + 1 := ⟨fuel - 1, by omega⟩
      rw [getCumulativeSummaryFuel_rec b topic t fuel' seg cache hhit hgt]
      exact lookupCache_insert _ _ _

/-- Fuel irrelevance: any two sufficient fuels give identical results. -/
theorem getCumulativeSummaryFuel_congr (b : Backend) (topic : String) (t : Nat)
    (ht : 1 ≤ t) :
    ∀ (f₁ f₂ : Nat) (seg : List Entry) (cache : Cache),
      seg.length ≤ f₁ + t → seg.length ≤ f₂ + t →
      getCumulativeSummaryFuel b topic t f₁ seg cache
        = getCumulativeSummaryFuel b topic t f₂ seg cache := by
  intro f₁
  induction f₁ with
  | zero =>
    intro f₂ seg cache h₁ h₂
    cases hhit : lookupCache cache seg.length with
    | some s =>
      rw [getCumulativeSummaryFuel_hit b topic t 0 seg cache s hhit,
        getCumulativeSummaryFuel_hit b topic t f₂ seg cache s hhit]
    | none =>
      have hle : seg.length ≤ t := by omega
      rw [getCumulativeSummaryFuel_base b topic t 0 seg cache hhit hle,
        getCumulativeSummaryFuel_base b topic t f₂ seg cache hhit hle]
  | succ f₁ ih =>
    intro f₂ seg cache h₁ h₂
    cases hhit : lookupCache cache seg.length with
    | some s =>
      rw [getCumulativeSummaryFuel_hit b topic t (f₁ + 1) seg cache s hhit,
        getCumulativeSummaryFuel_hit b topic t f₂ seg cache s hhit]
    | none =>
      by_cases hle : seg.length ≤ t
      · rw [getCumulativeSummaryFuel_base b topic t (f₁ + 1) seg cache hhit hle,
          getCumulativeSummaryFuel_base b topic t f₂ seg cache hhit hle]
      · have hgt : t < seg.length := Nat.not_le.mp hle
        obtain ⟨f₂', rfl⟩ : ∃ f, f₂ = f + 1 := ⟨f₂ - 1, by omega⟩
        rw [getCumulativeSummaryFuel_rec b topic t f₁ seg cache hhit hgt,
          getCumulativeSummaryFuel_rec b topic t f₂' seg cache hhit hgt]
        have hlen : (seg.take (seg.length - t)).length = seg.length - t := by
          rw [List.length_take]; omega
        have heq := ih f₂' (seg.take (seg.length - t)) cache
          (by rw [hlen]; omega) (by rw [hlen]; omega)
        simp only [heq]

/-- From an empty cache, computing the cumulative summary for a segment of
positive length `E` issues exactly `⌈E / t⌉` generation calls — one per
chunk, linear in the number of chunks. -/
theorem getCumulativeSummaryFuel_calls_empty (b : Backend) (topic : String)
    (t : Nat) (ht : 1 ≤ t) :
    ∀ (fuel : Nat) (seg : List Entry), 1 ≤ seg.length → seg.length ≤ fuel + t →
      (getCumulativeSummaryFuel b topic t fuel seg []).2.2
        = (seg.length + t - 1) / t := by
  intro fuel
  induction fuel with
  | zero =>
    intro seg h1 h2
    have hle : seg.length ≤ t := by omega
    have hhit : lookupCache [] seg.length = none := rfl
    rw [getCumulativeSummaryFuel_base b topic t 0 seg [] hhit hle]
    rw [summarizeChunkWithLLM_calls]
    have hdiv : (seg.length + t - 1) / t = 1 :=
        Nat.div_eq_of_lt_le (by omega) (by omega)
    omega
  | succ fuel ih =>
    intro seg h1 h2
    have hhit : lookupCache [] seg.length = none := rfl
    by_cases hle : seg.length ≤ t
    · rw [getCumulativeSummaryFuel_base b topic t (fuel + 1) seg [] hhit hle]
      rw [summarizeChunkWithLLM_calls]
      have hdiv : (seg.length + t - 1) / t = 1 :=
        Nat.div_eq_of_lt_le (by omega) (by omega)
      omega
    · have hgt : t < seg.length := Nat.not_le.mp hle
      rw [getCumulativeSummaryFuel_rec b topic t fuel seg [] hhit hgt]
      have hlen : (seg.take (seg.length - t)).length = seg.length - t := by
        rw [List.length_take]; omega
      have hpr := ih (seg.take (seg.length - t)) (by omega) (by rw [hlen]; omega)
      rw [hlen] at hpr
      simp only [hpr, updateSummaryWithLLM_calls]
      have h3 : seg.length - t + t - 1 = seg.length - 1 := by omega
      have h4 : seg.length + t - 1 = (seg.length - 1) + t := by omega
      rw [h3, h4, Nat.add_div_right _ (by omega)]

/-- Claim C3: Within one agent session the cumulative summary for a given end
index `E` is computed at most once:
1. a request whose end index is already cached returns the cached text,
   issues no generation call, and leaves the cache unchanged;
2. every completed request leaves its own result cached under its end
   index;
3. from a fresh cache, computing boundary `E > 0` issues exactly
   `⌈E / chunk_threshold⌉` generation calls — `O(number of chunks)`, not
   `O(turns²)`;
4. computing the next larger boundary `E + chunk_threshold` over a cache
   that already holds `E` issues exactly one new generation call (the
   recursive request for `E` is served from the cache). -/
theorem C3_summary_memoized (b : Backend) (topic : String) (t : Nat) (ht : 1 ≤ t) :
    (∀ (seg : List Entry) (cache : Cache) (s : String),
        lookupCache cache seg.length = some s →
        getCumulativeSummary b seg topic t cache = (s, cache, 0))
  ∧ (∀ (seg : List Entry) (cache : Cache),
        lookupCache (getCumulativeSummary b seg topic t cache).2.1 seg.length
          = some (getCumulativeSummary b seg topic t cache).1)
  ∧ (∀ seg : List Entry, 1 ≤ seg.length →
        (getCumulativeSummary b seg topic t []).2.2 = (seg.length + t - 1) / t)
  ∧ (∀ (seg : List Entry) (cache : Cache) (s : String) (E : Nat),
        seg.length = E + t → 1 ≤ E →
        lookupCache cache E = some s →
        lookupCache cache (E + t) = none →
        (getCumulativeSummary b seg topic t cache).2.2 = 1) := by
  refine ⟨?_, ?_, ?_, ?_⟩
  · intro seg cache s h
    exact getCumulativeSummaryFuel_hit b topic t seg.length seg cache s h
  · intro seg cache
    exact getCumulativeSummaryFuel_caches b topic t seg.length seg cache (by omega)
  · intro seg h1
    exact getCumulativeSummaryFuel_calls_empty b topic t ht seg.length seg h1 (by omega)
  · intro seg cache s E hlen hE hhitE hmiss
    unfold getCumulativeSummary
    obtain ⟨f, hf⟩ : ∃ f, seg.length = f + 1 := ⟨seg.length - 1, by omega⟩
    rw [hf]
    rw [getCumulativeSummaryFuel_rec b topic t f seg cache
      (by rw [hlen]; exact hmiss) (by omega)]
    have hprev := getCumulativeSummaryFuel_hit b topic t f
      (seg.take (seg.length - t)) cache s
      (by rw [List.length_take, hlen]; have hmin : min (E + t - t) (E + t) = E := by omega
          rw [hmin]; exact hhitE)
    simp only [hprev, updateSummaryWithLLM_calls]

/-- Witness for C3: a one-entry segment whose end index `1` is already
cached is answered from the cache with zero generation calls. -/
theorem C3_summary_memoized_witness :
    getCumulativeSummary failBackend [sampleEntry] "" 2 [(1, "s")] = ("s", [(1, "s")], 0) :=
  (C3_summary_memoized failBackend "" 2 (by norm_num)).1 [sampleEntry] [(1, "s")] "s" rfl

set_option maxRecDepth 8000 in
/-- Claim C4, counterexample: The claim says a failed generation call for a
*recursive summary update* also yields the deterministic per-speaker
short-prefix fallback (`_fallback_summary`).  It does not: with a backend
whose calls all fail, threshold 2 and a four-turn slice, the returned text
is the previous (base-case) fallback concatenated with an
`"[Update failed]"` marker and the *full verbatim* new chunk — it differs
from `_fallback_summary` of the whole slice and from `_fallback_summary`
of the new chunk. -/
theorem C4_counterexample :
    (getCumulativeSummary failBackend seg4 "" 2 []).1 ≠ fallbackSummary seg4
  ∧ (getCumulativeSummary failBackend seg4 "" 2 []).1 ≠ fallbackSummary (seg4.drop 2)
  ∧ (getCumulativeSummary failBackend seg4 "" 2 []).1
      = fallbackSummary (seg4.take 2) ++ "\n\n[Update failed]\n"
        ++ formatMessagesVerbatim (seg4.drop 2) := by
  refine ⟨by decide, by decide, by decide⟩

/-- Claim C4, amended: When a generation call for a summary fails, the
result is cached under the same end-index key as a success would be, so
the failed boundary is never recomputed; the fallback text depends on the
path: a failed *base-case* chunk summary returns the deterministic
per-speaker short-prefix `_fallback_summary`, while a failed *recursive
update* returns the previous summary concatenated with an
`"[Update failed]"` marker and the verbatim new chunk. -/
theorem C4_failure_fallback (b : Backend) (topic : String) (t : Nat) (ht : 1 ≤ t) :
    (∀ (seg : List Entry) (cache : Cache),
        lookupCache cache seg.length = none →
        1 ≤ seg.length → seg.length ≤ t →
        b.chatSummarize (summarizePrompt seg topic 1 seg.length) = .err →
        getCumulativeSummary b seg topic t cache
          = (fallbackSummary seg,
             insertCache cache seg.length (fallbackSummary seg), 1))
  ∧ (∀ (seg : List Entry) (cache : Cache),
        lookupCache cache seg.length = none →
        t < seg.length →
        (∀ prompt, b.chatUpdate prompt = .err) →
        getCumulativeSummary b seg topic t cache
          = (let pr := getCumulativeSummary b (seg.take (seg.length - t)) topic t cache
             let failText := pr.1 ++ "\n\n[Update failed]\n"
               ++ formatMessagesVerbatim (seg.drop (seg.length - t))
             (failText, insertCache pr.2.1 seg.length failText, pr.2.2 + 1))) := by
  constructor
  · intro seg cache hmiss h1 hle herr
    unfold getCumulativeSummary
    rw [getCumulativeSummaryFuel_base b topic t seg.length seg cache hmiss hle]
    unfold summarizeChunkWithLLM
    rw [herr]
  · intro seg cache hmiss hgt herr
    unfold getCumulativeSummary
    obtain ⟨f, hf⟩ : ∃ f, seg.length = f + 1 := ⟨seg.length - 1, by omega⟩
    conv_lhs => rw [hf]
    rw [getCumulativeSummaryFuel_rec b topic t f seg cache hmiss (by omega)]
    have htake : (seg.take (seg.length - t)).length = seg.length - t := by
      rw [List.length_take]; omega
    have hcongr := getCumulativeSummaryFuel_congr b topic t ht f
      (seg.take (seg.length - t)).length (seg.take (seg.length - t)) cache
      (by rw [htake]; omega) (by omega)
    simp only [← hcongr]
    unfold updateSummaryWithLLM
    rw [herr]

/-- Witness for C4 at threshold 2, the four-turn slice and the all-failing
backend: the base-case branch on the first chunk. -/
theorem C4_failure_fallback_witness :
    getCumulativeSummary failBackend (seg4.take 2) "" 2 []
      = (fallbackSummary (seg4.take 2),
         insertCache [] (seg4.take 2).length (fallbackSummary (seg4.take 2)), 1) :=
  (C4_failure_fallback failBackend "" 2 (by norm_num)).1 (seg4.take 2) [] rfl
    (by decide) (by decide) rfl

/-! ### Python `min`/`max` argmin lemmas (C6 infrastructure) -/

section PythonExtremum

variable {β : Type} {α : Type} [LinearOrder α]

/-- The running best of Python's `min` is the initial candidate or a list
element. -/
theorem pythonMinFold_mem (best : β × α) (l : List (β × α)) :
    pythonMinFold best l = best ∨ pythonMinFold best l ∈ l := by
  induction l generalizing best with
  | nil => left; rfl
  | cons x xs ih =>
    simp only [pythonMinFold]
    by_cases hx : x.2 < best.2
    · rw [if_pos hx]
      rcases ih x with h | h
      · right; rw [h]; exact List.mem_cons_self x xs
      · right; exact List.mem_cons_of_mem x h
    · rw [if_neg hx]
      rcases ih best with h | h
      · left; exact h
      · right; exact List.mem_cons_of_mem x h

/-- The running best of Python's `min` is a lower bound of the initial
candidate and every element. -/
theorem pythonMinFold_le (best : β × α) (l : List (β × α)) :
    (pythonMinFold best l).2 ≤ best.2 ∧ ∀ y ∈ l, (pythonMinFold best l).2 ≤ y.2 := by
  induction l generalizing best with
  | nil => exact ⟨le_refl _, by intro y hy; cases hy⟩
  | cons x xs ih =>
    simp only [pythonMinFold]
    by_cases hx : x.2 < best.2
    · rw [if_pos hx]
      obtain ⟨h1, h2⟩ := ih x
      refine ⟨h1.trans hx.le, ?_⟩
      intro y hy
      rcases List.mem_cons.mp hy with rfl | hy
      · exact h1
      · exact h2 y hy
    · rw [if_neg hx]
      obtain ⟨h1, h2⟩ := ih best
      refine ⟨h1, ?_⟩
      intro y hy
      rcases List.mem_cons.mp hy with rfl | hy
      · exact h1.trans (not_lt.mp hx)
      · exact h2 y hy

/-- Python's `min` keeps the *first* minimal element: the traversed list
splits at the result, and everything strictly before it has a strictly
larger key. -/
theorem pythonMinFold_first (best : β × α) (l : List (β × α)) :
    ∃ l₁ l₂, best :: l = l₁ ++ pythonMinFold best l :: l₂
      ∧ ∀ y ∈ l₁, (pythonMinFold best l).2 < y.2 := by
  induction l generalizing best with
  | nil => exact ⟨[], [], rfl, by intro y hy; cases hy⟩
  | cons x xs ih =>
    simp only [pythonMinFold]
    by_cases hx : x.2 < best.2
    · rw [if_pos hx]
      obtain ⟨l₁, l₂, hsplit, hlt⟩ := ih x
      refine ⟨best :: l₁, l₂, by rw [List.cons_append, ← hsplit], ?_⟩
      intro y hy
      rcases List.mem_cons.mp hy with rfl | hy
      · exact lt_of_le_of_lt (pythonMinFold_le x xs).1 hx
      · exact hlt y hy
    · rw [if_neg hx]
      obtain ⟨l₁, l₂, hsplit, hlt⟩ := ih best
      cases l₁ with
      | nil =>
        simp only [List.nil_append] at hsplit
        injection hsplit with h1 h2
        refine ⟨[], x :: xs, ?_, by intro y hy; cases hy⟩
        simp only [List.nil_append]
        rw [← h1]
      | cons z zs =>
        rw [List.cons_append] at hsplit
        injection hsplit with h1 h2
        refine ⟨best :: x :: zs, l₂, ?_, ?_⟩
        · simp only [List.cons_append]
          exact congrArg (fun l => best :: x :: l) h2
        · have hrbest : (pythonMinFold best xs).2 < best.2 := by
            have h := hlt z (List.mem_cons_self z zs)
            rw [← h1] at h; exact h
          intro y hy
          rcases List.mem_cons.mp hy with rfl | hy'
          · exact hrbest
          · rcases List.mem_cons.mp hy' with rfl | hy''
            · exact hrbest.trans_le (not_lt.mp hx)
            · exact hlt y (List.mem_cons_of_mem z hy'')

/-- The running best of Python's `max` is the initial candidate or a list
element. -/
theorem pythonMaxFold_mem (best : β × α) (l : List (β × α)) :
    pythonMaxFold best l = best ∨ pythonMaxFold best l ∈ l := by
  induction l generalizing best with
  | nil => left; rfl
  | cons x xs ih =>
    simp only [pythonMaxFold]
    by_cases hx : best.2 < x.2
    · rw [if_pos hx]
      rcases ih x with h | h
      · right; rw [h]; exact List.mem_cons_self x xs
      · right; exact List.mem_cons_of_mem x h
    · rw [if_neg hx]
      rcases ih best with h | h
      · left; exact h
      · right; exact List.mem_cons_of_mem x h

/-- The running best of Python's `max` is an upper bound of the initial
candidate and every element. -/
theorem pythonMaxFold_ge (best : β × α) (l : List (β × α)) :
    best.2 ≤ (pythonMaxFold best l).2 ∧ ∀ y ∈ l, y.2 ≤ (pythonMaxFold best l).2 := by
  induction l generalizing best with
  | nil => exact ⟨le_refl _, by intro y hy; cases hy⟩
  | cons x xs ih =>
    simp only [pythonMaxFold]
    by_cases hx : best.2 < x.2
    · rw [if_pos hx]
      obtain ⟨h1, h2⟩ := ih x
      refine ⟨hx.le.trans h1, ?_⟩
      intro y hy
      rcases List.mem_cons.mp hy with rfl | hy
      · exact h1
      · exact h2 y hy
    · rw [if_neg hx]
      obtain ⟨h1, h2⟩ := ih best
      refine ⟨h1, ?_⟩
      intro y hy
      rcases List.mem_cons.mp hy with rfl | hy
      · exact (not_lt.mp hx).trans h1
      · exact h2 y hy

/-- Python's `max` keeps the *first* maximal element: the traversed list
splits at the result, and everything strictly before it has a strictly
smaller key. -/
theorem pythonMaxFold_first (best : β × α) (l : List (β × α)) :
    ∃ l₁ l₂, best :: l = l₁ ++ pythonMaxFold best l :: l₂
      ∧ ∀ y ∈ l₁, y.2 < (pythonMaxFold best l).2 := by
  induction l generalizing best with
  | nil => exact ⟨[], [], rfl, by intro y hy; cases hy⟩
  | cons x xs ih =>
    simp only [pythonMaxFold]
    by_cases hx : best.2 < x.2
    · rw [if_pos hx]
      obtain ⟨l₁, l₂, hsplit, hlt⟩ := ih x
      refine ⟨best :: l₁, l₂, by rw [List.cons_append, ← hsplit], ?_⟩
      intro y hy
      rcases List.mem_cons.mp hy with rfl | hy
      · exact lt_of_lt_of_le hx (pythonMaxFold_ge x xs).1
      · exact hlt y hy
    · rw [if_neg hx]
      obtain ⟨l₁, l₂, hsplit, hlt⟩ := ih best
      cases l₁ with
      | nil =>
        simp only [List.nil_append] at hsplit
        injection hsplit with h1 h2
        refine ⟨[], x :: xs, ?_, by intro y hy; cases hy⟩
        simp only [List.nil_append]
        rw [← h1]
      | cons z zs =>
        rw [List.cons_append] at hsplit
        injection hsplit with h1 h2
        refine ⟨best :: x :: zs, l₂, ?_, ?_⟩
        · simp only [List.cons_append]
          exact congrArg (fun l => best :: x :: l) h2
        · have hrbest : best.2 < (pythonMaxFold best xs).2 := by
            have h := hlt z (List.mem_cons_self z zs)
            rw [← h1] at h; exact h
          intro y hy
          rcases List.mem_cons.mp hy with rfl | hy'
          · exact hrbest
          · rcases List.mem_cons.mp hy' with rfl | hy''
            · exact lt_of_le_of_lt (not_lt.mp hx) hrbest
            · exact hlt y (List.mem_cons_of_mem z hy'')

end PythonExtremum

/-- The pair enumeration ranges exactly over `i < j < n`. -/
theorem mem_allPairs (n : Nat) (p : Nat × Nat) :
    p ∈ allPairs n ↔ p.1 < p.2 ∧ p.2 < n := by
  simp only [allPairs, List.mem_flatMap, List.mem_map, List.mem_filter,
    List.mem_range, decide_eq_true_eq]
  constructor
  · rintro ⟨a, ha, b, ⟨hb, hab⟩, heq⟩
    rw [← heq]
    exact ⟨hab, hb⟩
  · rintro ⟨hij, hjn⟩
    exact ⟨p.1, by omega, p.2, ⟨hjn, hij⟩, rfl⟩

/-- Claim C6: For every pool of at least 2 participants:
`select_most_dissimilar` returns a pair with the globally minimum pairwise
similarity, and among all minimizing pairs it is the first encountered in
the lexicographic `i < j` enumeration (everything strictly earlier in the
similarity matrix has strictly larger similarity); `select_most_similar`
is symmetric with the maximum; and every enumerated pair satisfies
`i < j < n`. -/
theorem C6_extreme_pairs {α : Type} [LinearOrder α] (n : Nat)
    (sim : Nat → Nat → α) (hn : 2 ≤ n) :
    (∃ p : Nat × Nat, selectDissimilarPair n sim = some p ∧ p ∈ allPairs n
      ∧ (∀ q ∈ allPairs n, sim p.1 p.2 ≤ sim q.1 q.2)
      ∧ ∃ l₁ l₂, calculateSimilarityMatrix n sim = l₁ ++ (p, sim p.1 p.2) :: l₂
          ∧ ∀ q ∈ l₁, sim p.1 p.2 < q.2)
  ∧ (∃ p : Nat × Nat, selectSimilarPair n sim = some p ∧ p ∈ allPairs n
      ∧ (∀ q ∈ allPairs n, sim q.1 q.2 ≤ sim p.1 p.2)
      ∧ ∃ l₁ l₂, calculateSimilarityMatrix n sim = l₁ ++ (p, sim p.1 p.2) :: l₂
          ∧ ∀ q ∈ l₁, q.2 < sim p.1 p.2)
  ∧ (∀ p ∈ allPairs n, p.1 < p.2 ∧ p.2 < n) := by
  have hmem01 : ((0, 1) : Nat × Nat) ∈ allPairs n :=
    (mem_allPairs n (0, 1)).mpr (by constructor <;> omega)
  refine ⟨?_, ?_, fun p hp => (mem_allPairs n p).mp hp⟩
  · cases hL : calculateSimilarityMatrix n sim with
    | nil =>
      exfalso
      have h0 : ((0, 1), sim 0 1) ∈ calculateSimilarityMatrix n sim :=
        List.mem_map_of_mem _ hmem01
      rw [hL] at h0
      cases h0
    | cons x xs =>
      have hmemL : pythonMinFold x xs ∈ calculateSimilarityMatrix n sim := by
        rw [hL]
        rcases pythonMinFold_mem x xs with h | h
        · rw [h]; exact List.mem_cons_self x xs
        · exact List.mem_cons_of_mem x h
      obtain ⟨p, hpmem, hpeq⟩ := List.mem_map.mp hmemL
      refine ⟨p, ?_, hpmem, ?_, ?_⟩
      · unfold selectDissimilarPair
        rw [hL]
        show some ((pythonMinFold x xs).1) = some p
        rw [← hpeq]
      · intro q hq
        have hyL : (q, sim q.1 q.2) ∈ calculateSimilarityMatrix n sim :=
          List.mem_map_of_mem _ hq
        rw [hL] at hyL
        have hmle : (pythonMinFold x xs).2 ≤ (q, sim q.1 q.2).2 := by
          rcases List.mem_cons.mp hyL with heq | hmem
          · rw [heq]; exact (pythonMinFold_le x xs).1
          · exact (pythonMinFold_le x xs).2 _ hmem
        rw [← hpeq] at hmle
        exact hmle
      · obtain ⟨l₁, l₂, hsplit, hlt⟩ := pythonMinFold_first x xs
        refine ⟨l₁, l₂, ?_, ?_⟩
        · rw [hpeq]; exact hsplit
        · intro q hq
          have h := hlt q hq
          rw [← hpeq] at h
          exact h
  · cases hL : calculateSimilarityMatrix n sim with
    | nil =>
      exfalso
      have h0 : ((0, 1), sim 0 1) ∈ calculateSimilarityMatrix n sim :=
        List.mem_map_of_mem _ hmem01
      rw [hL] at h0
      cases h0
    | cons x xs =>
      have hmemL : pythonMaxFold x xs ∈ calculateSimilarityMatrix n sim := by
        rw [hL]
        rcases pythonMaxFold_mem x xs with h | h
        · rw [h]; exact List.mem_cons_self x xs
        · exact List.mem_cons_of_mem x h
      obtain ⟨p, hpmem, hpeq⟩ := List.mem_map.mp hmemL
      refine ⟨p, ?_, hpmem, ?_, ?_⟩
      · unfold selectSimilarPair
        rw [hL]
        show some ((pythonMaxFold x xs).1) = some p
        rw [← hpeq]
      · intro q hq
        have hyL : (q, sim q.1 q.2) ∈ calculateSimilarityMatrix n sim :=
          List.mem_map_of_mem _ hq
        rw [hL] at hyL
        have hmle : (q, sim q.1 q.2).2 ≤ (pythonMaxFold x xs).2 := by
          rcases List.mem_cons.mp hyL with heq | hmem
          · rw [heq]; exact (pythonMaxFold_ge x xs).1
          · exact (pythonMaxFold_ge x xs).2 _ hmem
        rw [← hpeq] at hmle
        exact hmle
      · obtain ⟨l₁, l₂, hsplit, hlt⟩ := pythonMaxFold_first x xs
        refine ⟨l₁, l₂, ?_, ?_⟩
        · rw [hpeq]; exact hsplit
        · intro q hq
          have h := hlt q hq
          rw [← hpeq] at h
          exact h

/-- Witness for C6 on a pool of three with a concrete similarity
function. -/
theorem C6_extreme_pairs_witness :
    (∃ p : Nat × Nat, selectDissimilarPair 3 simEx = some p ∧ p ∈ allPairs 3
      ∧ (∀ q ∈ allPairs 3, simEx p.1 p.2 ≤ simEx q.1 q.2)
      ∧ ∃ l₁ l₂, calculateSimilarityMatrix 3 simEx = l₁ ++ (p, simEx p.1 p.2) :: l₂
          ∧ ∀ q ∈ l₁, simEx p.1 p.2 < q.2)
  ∧ (∃ p : Nat × Nat, selectSimilarPair 3 simEx = some p ∧ p ∈ allPairs 3
      ∧ (∀ q ∈ allPairs 3, simEx q.1 q.2 ≤ simEx p.1 p.2)
      ∧ ∃ l₁ l₂, calculateSimilarityMatrix 3 simEx = l₁ ++ (p, simEx p.1 p.2) :: l₂
          ∧ ∀ q ∈ l₁, q.2 < simEx p.1 p.2)
  ∧ (∀ p ∈ allPairs 3, p.1 < p.2 ∧ p.2 < 3) :=
  C6_extreme_pairs 3 simEx (by norm_num)

end STT
